import Mathlib

/-!
# Verification of the pyweather CLI

A shallow embedding of `src/pyweather.py` in Lean 4, together with theorems
settling the specification's claims about it.

Strings are modelled as lists of Unicode code points (`List Nat`), so that
display-width reasoning (which is per code point) is direct.  Machine
integers do not occur: all arithmetic in the source is small-integer.
Failure paths of the Python code (`sys.exit(1)` after printing a message)
are modelled by `Option`/explicit result values; an uncaught Python
exception is modelled by `Option.none` at the top level.
-/

namespace PyWeather

/-- Code points of a Lean string literal; used to write concrete strings of
the program as `List Nat`. -/
def codes (s : String) : List Nat := s.data.map Char.toNat

/-- ASCII lowercasing of one code point, the fragment of Python's
`str.lower` relevant to the keyword matching (keywords are ASCII). -/
def lowerChar (c : Nat) : Nat := if 65 ≤ c ∧ c ≤ 90 then c + 32 else c

/-- Python's substring test `pat in s`. -/
def isSub (pat : List Nat) : List Nat → Bool
  | [] => pat.isEmpty
  | c :: rest => pat.isPrefixOf (c :: rest) || isSub pat rest

/-! ## DisplayWidthCalculator: the `wcwidth` library

`wcswidth` sums per-character terminal widths and returns `-1` as soon as a
non-printable character is met.  The per-character table below models the
library's classification: `0` for NUL, combining marks and variation
selectors, `-1` for the remaining C0/C1 control characters, `2` for wide
glyphs (East-Asian wide ranges and most emoji), `1` otherwise. -/

/-- Terminal column width of one code point (the `wcwidth` function). -/
def wcwidthChar (c : Nat) : Int :=
  if c = 0 then 0
  else if c < 32 ∨ (127 ≤ c ∧ c < 160) then -1
  else if (0x300 ≤ c ∧ c ≤ 0x36F) ∨ (0x200B ≤ c ∧ c ≤ 0x200F)
       ∨ (0x20D0 ≤ c ∧ c ≤ 0x20FF) ∨ (0xFE00 ≤ c ∧ c ≤ 0xFE0F) then 0
  else if (0x1100 ≤ c ∧ c ≤ 0x115F) ∨ (0x2E80 ≤ c ∧ c ≤ 0x303E)
       ∨ (0x3041 ≤ c ∧ c ≤ 0x33FF) ∨ (0x3400 ≤ c ∧ c ≤ 0x4DBF)
       ∨ (0x4E00 ≤ c ∧ c ≤ 0x9FFF) ∨ (0xA000 ≤ c ∧ c ≤ 0xA4CF)
       ∨ (0xAC00 ≤ c ∧ c ≤ 0xD7A3) ∨ (0xF900 ≤ c ∧ c ≤ 0xFAFF)
       ∨ (0xFE30 ≤ c ∧ c ≤ 0xFE4F) ∨ (0xFF00 ≤ c ∧ c ≤ 0xFF60)
       ∨ (0xFFE0 ≤ c ∧ c ≤ 0xFFE6) ∨ (0x1F300 ≤ c ∧ c ≤ 0x1F64F)
       ∨ (0x1F900 ≤ c ∧ c ≤ 0x1F9FF) ∨ (0x26C4 ≤ c ∧ c ≤ 0x26CD) then 2
  else 1

/-- Rendered width of a string: sum of character widths, or `-1` when some
character is non-printable (the `wcswidth` function). -/
def wcswidth : List Nat → Int
  | [] => 0
  | c :: rest =>
    if wcwidthChar c < 0 then -1
    else if wcswidth rest < 0 then -1
    else wcwidthChar c + wcswidth rest

/-! ## ColumnPadder: `pad_string` (pyweather.py lines 10-14) -/

/-- `pad_string(s, width)`: append `max(0, width - wcswidth(s))` spaces. -/
def pad_string (s : List Nat) (width : Int) : List Nat :=
  let visual_len := wcswidth s
  let padding := max 0 (width - visual_len)
  s ++ List.replicate padding.toNat 32

/-! ## DateRangeParser: `parse_dates` (pyweather.py lines 17-31)

`datetime.datetime.strptime(s, "%Y-%m-%d").date()` is modelled after
CPython's `_strptime`: the format compiles to the regular expression
`(\d\d\d\d)-(1[0-2]|0[1-9]|[1-9])-(3[01]|[12]\d|0[1-9]|[1-9])`, anchored at
the start, with a trailing check that no input remains; the matched numbers
are then validated by the `datetime.date` constructor (year 1-9999, month
1-12, day 1-days_in_month). -/

/-- A calendar date as produced by `datetime.date`. -/
structure Date where
  year : Nat
  month : Nat
  day : Nat
deriving DecidableEq, Repr

/-- Python's chronological `date` comparison `d1 <= d2`. -/
def dateLE (a b : Date) : Bool :=
  a.year < b.year ∨ (a.year = b.year ∧
    (a.month < b.month ∨ (a.month = b.month ∧ a.day ≤ b.day)))

def isDigit (c : Nat) : Bool := 48 ≤ c ∧ c ≤ 57

/-- Numeric value of a digit string (most significant first). -/
def natOfDigits (l : List Nat) : Nat := l.foldl (fun a c => a * 10 + (c - 48)) 0

def isLeap (y : Nat) : Bool := y % 4 = 0 ∧ (y % 100 ≠ 0 ∨ y % 400 = 0)

def daysInMonth (y m : Nat) : Nat :=
  if m = 2 then (if isLeap y then 29 else 28)
  else if m = 4 ∨ m = 6 ∨ m = 9 ∨ m = 11 then 30
  else 31

/-- Validity enforced by the `datetime.date` constructor. -/
def validDate (y m d : Nat) : Bool :=
  1 ≤ y ∧ y ≤ 9999 ∧ 1 ≤ m ∧ m ≤ 12 ∧ 1 ≤ d ∧ d ≤ daysInMonth y m

/-- `datetime.date(y, m, d)`: `none` models the raised `ValueError`. -/
def date_ctor (y m d : Nat) : Option Date :=
  if validDate y m d then some ⟨y, m, d⟩ else none

/-- The `%Y` directive: exactly four digits. -/
def parseYear : List Nat → Option (Nat × List Nat)
  | a :: b :: c :: d :: rest =>
    if isDigit a ∧ isDigit b ∧ isDigit c ∧ isDigit d then
      some ((a - 48) * 1000 + (b - 48) * 100 + (c - 48) * 10 + (d - 48), rest)
    else none
  | _ => none

/-- The `%m` directive: alternatives `1[0-2]`, `0[1-9]`, `[1-9]` in regex
order (a failing two-character alternative cannot be rescued by the
one-character one, since the following format character is a dash). -/
def parseMonth : List Nat → Option (Nat × List Nat)
  | c1 :: c2 :: rest =>
    if c1 = 49 ∧ 48 ≤ c2 ∧ c2 ≤ 50 then some (10 + (c2 - 48), rest)
    else if c1 = 48 ∧ 49 ≤ c2 ∧ c2 ≤ 57 then some (c2 - 48, rest)
    else if 49 ≤ c1 ∧ c1 ≤ 57 then some (c1 - 48, c2 :: rest)
    else none
  | [c1] => if 49 ≤ c1 ∧ c1 ≤ 57 then some (c1 - 48, []) else none
  | [] => none

/-- The `%d` directive: alternatives `3[01]`, `[12]\d`, `0[1-9]`, `[1-9]`
in regex order. -/
def parseDay : List Nat → Option (Nat × List Nat)
  | c1 :: c2 :: rest =>
    if c1 = 51 ∧ (c2 = 48 ∨ c2 = 49) then some (30 + (c2 - 48), rest)
    else if (c1 = 49 ∨ c1 = 50) ∧ isDigit c2 then
      some ((c1 - 48) * 10 + (c2 - 48), rest)
    else if c1 = 48 ∧ 49 ≤ c2 ∧ c2 ≤ 57 then some (c2 - 48, rest)
    else if 49 ≤ c1 ∧ c1 ≤ 57 then some (c1 - 48, c2 :: rest)
    else none
  | [c1] => if 49 ≤ c1 ∧ c1 ≤ 57 then some (c1 - 48, []) else none
  | [] => none

/-- The literal `-` of the format string. -/
def expectDash : List Nat → Option (List Nat)
  | c :: r => if c = 45 then some r else none
  | [] => none

/-- `datetime.datetime.strptime(s, "%Y-%m-%d").date()`; `none` models the
raised `ValueError` (no match, unconverted data, or invalid date). -/
def strptime_Ymd (s : List Nat) : Option Date := do
  let (y, r1) ← parseYear s
  let r2 ← expectDash r1
  let (m, r3) ← parseMonth r2
  let r4 ← expectDash r3
  let (d, r5) ← parseDay r4
  if r5 = [] then date_ctor y m d else none

/-- Python's `s.split(":")`: split on every colon, keeping empty parts. -/
def splitColon : List Nat → List (List Nat)
  | [] => [[]]
  | c :: rest =>
    if c = 58 then [] :: splitColon rest
    else
      match splitColon rest with
      | [] => [[c]]
      | h :: t => (c :: h) :: t

/-- The trailing `if start_date > end_date: raise ValueError(...)` check of
`parse_dates`, applied to the dates obtained so far. -/
def checkOrder : Option (Date × Date) → Option (Date × Date)
  | some (d1, d2) => if dateLE d1 d2 then some (d1, d2) else none
  | none => none

/-- `parse_dates(date_str)`: `none` models the `except` branch (print the
error and `sys.exit(1)`).  The tuple unpacking of `split(":")` raises when
the token holds more than one colon; the final comparison raises when the
start date is after the end date. -/
def parse_dates (s : List Nat) : Option (Date × Date) :=
  checkOrder
    (if 58 ∈ s then
      match splitColon s with
      | [a, b] =>
        match strptime_Ymd a, strptime_Ymd b with
        | some d1, some d2 => some (d1, d2)
        | _, _ => none
      | _ => none
    else (strptime_Ymd s).map (fun d => (d, d)))

/-! ## ConditionSymbolMapper: `get_weather_emoji` (pyweather.py lines 49-64) -/

/-- The ordered keyword chain applied after `condition.lower()`. -/
def symbolFor (c : List Nat) : List Nat :=
  if isSub (codes "clear") c || isSub (codes "sun") c then codes "☀️"
  else if isSub (codes "partly") c || isSub (codes "cloud") c then codes "⛅"
  else if isSub (codes "rain") c then codes "🌧️"
  else if isSub (codes "snow") c then codes "❄️"
  else if isSub (codes "storm") c || isSub (codes "thunder") c then codes "⛈️"
  else if isSub (codes "fog") c then codes "🌫️"
  else codes "🌈"

/-- `get_weather_emoji(condition)`: lowercase, then first-match-wins. -/
def get_weather_emoji (condition : List Nat) : List Nat :=
  symbolFor (condition.map lowerChar)

/-! ## WeatherClient and CLI entry point (pyweather.py lines 33-47, 66-114) -/

/-- One element of the provider's `days` array, as consumed by `main`.
Numeric fields are carried as the text their f-string interpolation
produces; `none` models an absent key (`day.get` default). -/
structure Day where
  datetime : Option (List Nat)
  tempmax : Option (List Nat)
  tempmin : Option (List Nat)
  precipprob : Option (List Nat)
  windspeed : Option (List Nat)
  conditions : Option (List Nat)
deriving DecidableEq, Repr

/-- The parsed JSON body; `days = none` models an absent `days` key. -/
structure JsonData where
  days : Option (List Day)
deriving DecidableEq, Repr

/-- A provider HTTP response: status code, body text, parsed body. -/
structure HttpResp where
  status : Nat
  text : List Nat
  json : JsonData
deriving DecidableEq, Repr

/-- The URL built inside `fetch_weather` by f-string interpolation:
`location = f"{city},{nation}"` is inserted verbatim. -/
def fetch_weather_url (nation city startD endD api_key : List Nat) : List Nat :=
  codes "https://weather.visualcrossing.com/VisualCrossingWebServices/rest/services/timeline/"
    ++ (city ++ [44] ++ nation) ++ [47] ++ startD ++ [47] ++ endD
    ++ codes "?unitGroup=metric&key=" ++ api_key ++ codes "&include=days"

/-- `fetch_weather`'s handling of the response: non-200 prints the status
and body and exits 1 (modelled by `Except.error`), 200 returns the body. -/
def fetch_weather (resp : HttpResp) : Except (Nat × List Nat) JsonData :=
  if resp.status ≠ 200 then .error (resp.status, resp.text) else .ok resp.json

/-- `str(date)` / f-string interpolation of a `datetime.date`:
zero-padded ISO `YYYY-MM-DD`. -/
def dateISO (d : Date) : List Nat :=
  [48 + d.year / 1000 % 10, 48 + d.year / 100 % 10, 48 + d.year / 10 % 10,
   48 + d.year % 10, 45, 48 + d.month / 10 % 10, 48 + d.month % 10, 45,
   48 + d.day / 10 % 10, 48 + d.day % 10]

/-- One printed item on stdout.  Error lines, the guidance line, the banner
and the no-data line are tagged with the data they interpolate; `table`
carries the rows handed to `tabulate`. -/
inductive OutItem
  | dateError
  | keyGuidance
  | fetchError (status : Nat) (body : List Nat)
  | banner (city nation : List Nat) (startD endD : Date)
  | noData
  | table (headers : List (List Nat)) (rows : List (List (List Nat)))
deriving DecidableEq, Repr

/-- The header row of the rendered table (pyweather.py line 95). -/
def tableHeaders : List (List Nat) :=
  [codes "Date", codes "Weather", codes "🌡️ Max/Min (°C)",
   codes "💧 Rain %", codes "💨 Wind (km/h)"]

/-- One table row built from a day record (pyweather.py lines 97-112).
`none` models the uncaught `TypeError` raised by `wcswidth(None)` when the
`datetime` key is absent. -/
def renderDay (day : Day) : Option (List (List Nat)) :=
  match day.datetime with
  | none => none
  | some date =>
    let tempmax := day.tempmax.getD (codes "N/A")
    let tempmin := day.tempmin.getD (codes "N/A")
    let precip := day.precipprob.getD (codes "N/A")
    let wind := day.windspeed.getD (codes "N/A")
    let condition := day.conditions.getD (codes "Unknown")
    let emoji := get_weather_emoji condition
    some [pad_string date 10,
          pad_string (emoji ++ [32] ++ condition) 20,
          pad_string (tempmax ++ codes "° / " ++ tempmin ++ codes "°") 15,
          pad_string (precip ++ codes "%") 8,
          pad_string (wind ++ codes " km/h") 12]

/-- The observable outcome of one run: process exit code, the stdout items
in order, and the URL requested from the provider (`none` when the run
ended before any network request). -/
structure RunResult where
  exitCode : Nat
  out : List OutItem
  requestedUrl : Option (List Nat)
deriving DecidableEq, Repr

/-- `main`, modelled over its environment: the parsed CLI arguments, the
credential from `os.environ.get` (`none` = unset variable), and the network
as a function from request URL to response.  The overall `none` models an
uncaught exception (a missing `datetime` key while rendering). -/
def main (nation city dateArg : List Nat) (apiKey : Option (List Nat))
    (http : List Nat → HttpResp) : Option RunResult :=
  match parse_dates dateArg with
  | none => some ⟨1, [.dateError], none⟩
  | some (startD, endD) =>
    if apiKey.getD [] = [] then some ⟨1, [.keyGuidance], none⟩
    else
      let url := fetch_weather_url nation city (dateISO startD) (dateISO endD)
        (apiKey.getD [])
      match fetch_weather (http url) with
      | .error (st, txt) => some ⟨1, [.fetchError st txt], some url⟩
      | .ok data =>
        let days := data.days.getD []
        if days = [] then
          some ⟨0, [.banner city nation startD endD, .noData], some url⟩
        else
          match days.mapM renderDay with
          | none => none
          | some rows =>
            some ⟨0, [.banner city nation startD endD,
                      .table tableHeaders rows], some url⟩

/-- Is this output item a rendered table? -/
def isTable : OutItem → Bool
  | .table _ _ => true
  | _ => false

/-! ## Specification-side definitions

These definitions follow the specification's words, not the source; they
exist to be compared with the source-derived definitions above. -/

/-- Following the spec's words, the required strict `YYYY-MM-DD` format:
four digits, dash, two digits, dash, two digits. -/
def matchesYMDStrict (t : List Nat) : Bool :=
  match t with
  | [y1, y2, y3, y4, 45, m1, m2, 45, d1, d2] =>
    isDigit y1 ∧ isDigit y2 ∧ isDigit y3 ∧ isDigit y4 ∧
    isDigit m1 ∧ isDigit m2 ∧ isDigit d1 ∧ isDigit d2
  | _ => false

/-- Following the spec's words, standard URL percent-encoding: unreserved
characters kept, every other character written as `%` plus two hex digits. -/
def isUnreservedChar (c : Nat) : Bool :=
  (48 ≤ c ∧ c ≤ 57) ∨ (65 ≤ c ∧ c ≤ 90) ∨ (97 ≤ c ∧ c ≤ 122) ∨
  c = 45 ∨ c = 46 ∨ c = 95 ∨ c = 126

def hexDigitChar (n : Nat) : Nat := if n < 10 then 48 + n else 55 + n

def specUrlEncode : List Nat → List Nat
  | [] => []
  | c :: rest =>
    (if isUnreservedChar c then [c]
     else [37, hexDigitChar (c / 16), hexDigitChar (c % 16)]) ++ specUrlEncode rest

/-- The format Python's `%Y-%m-%d` parsing actually accepts, stated
declaratively: a four-digit year, a dash, a one-or-two-digit month, a dash,
a one-or-two-digit day, with the three numbers forming a valid calendar
date.  (Unlike strict `YYYY-MM-DD`, month and day need not be
zero-padded.) -/
def lenientDatePart (t : List Nat) (y m d : Nat) : Prop :=
  ∃ a b c, t = a ++ [45] ++ b ++ [45] ++ c ∧
    a.length = 4 ∧ (∀ x ∈ a, isDigit x) ∧
    1 ≤ b.length ∧ b.length ≤ 2 ∧ (∀ x ∈ b, isDigit x) ∧
    1 ≤ c.length ∧ c.length ≤ 2 ∧ (∀ x ∈ c, isDigit x) ∧
    natOfDigits a = y ∧ natOfDigits b = m ∧ natOfDigits c = d ∧
    validDate y m d

/-- Declarative success condition of `parse_dates`: either a colon-free
token in the lenient format, or exactly one colon with both parts in the
lenient format and the first date not after the second. -/
def parseOKSpec (s : List Nat) : Prop :=
  ((58 ∉ s) ∧ ∃ y m d, lenientDatePart s y m d) ∨
  (∃ a b, s = a ++ 58 :: b ∧ 58 ∉ a ∧ 58 ∉ b ∧
    ∃ y1 m1 d1 y2 m2 d2, lenientDatePart a y1 m1 d1 ∧
      lenientDatePart b y2 m2 d2 ∧ dateLE ⟨y1, m1, d1⟩ ⟨y2, m2, d2⟩)

/-! ### Width lemmas -/

theorem wcswidth_all_one {l : List Nat} (h : ∀ c ∈ l, wcwidthChar c = 1) :
    wcswidth l = l.length := by
  induction l with
  | nil => rfl
  | cons c rest ih =>
    have hc : wcwidthChar c = 1 := h c (List.mem_cons_self c rest)
    have hrest : wcswidth rest = rest.length :=
      ih (fun x hx => h x (List.mem_cons_of_mem c hx))
    simp only [wcswidth, hc, hrest, List.length_cons]
    norm_num
    omega

theorem wcwidthChar_space : wcwidthChar 32 = 1 := by decide

/-- Sanity check: the space-only padding suffix has all-one widths. -/
theorem replicate_space_all_one (k : Nat) :
    ∀ c ∈ List.replicate k 32, wcwidthChar c = 1 := by
  intro c hc
  have := List.eq_of_mem_replicate hc
  subst this
  exact wcwidthChar_space

/-- C1: for a string of single-width characters, the padded result has
rendered width and character count `max (len s) w`, and consists of `s`
followed only by spaces. -/
theorem pad_string_single_width (s : List Nat) (w : Int)
    (h : ∀ c ∈ s, wcwidthChar c = 1) :
    wcswidth (pad_string s w) = max (s.length : Int) w ∧
    ((pad_string s w).length : Int) = max (s.length : Int) w ∧
    ∃ k, pad_string s w = s ++ List.replicate k 32 := by
  have hs : wcswidth s = s.length := wcswidth_all_one h
  have hall : ∀ c ∈ pad_string s w, wcwidthChar c = 1 := by
    intro c hc
    rcases List.mem_append.mp hc with h1 | h2
    · exact h c h1
    · exact replicate_space_all_one _ c h2
  have hlen : ((pad_string s w).length : Int) = max (s.length : Int) w := by
    show ((s ++ List.replicate (max 0 (w - wcswidth s)).toNat 32).length : Int) = _
    rw [List.length_append, List.length_replicate, hs]
    rcases le_total w (s.length : Int) with h1 | h1
    · rw [max_eq_left h1]
      have : max 0 (w - (s.length : Int)) = 0 := max_eq_left (by omega)
      rw [this]
      simp
    · rw [max_eq_right h1]
      have h2 : max 0 (w - (s.length : Int)) = w - s.length :=
        max_eq_right (by omega)
      rw [h2]
      have h3 : ((w - (s.length : Int)).toNat : Int) = w - s.length :=
        Int.toNat_of_nonneg (by omega)
      push_cast
      omega
  refine ⟨?_, hlen, ⟨(max 0 (w - wcswidth s)).toNat, rfl⟩⟩
  rw [wcswidth_all_one hall]
  exact hlen

/-- Witness for C1 at `s = "hi"`, `w = 5`. -/
theorem pad_string_single_width_witness :
    wcswidth (pad_string (codes "hi") 5) = max ((codes "hi").length : Int) 5 ∧
    ((pad_string (codes "hi") 5).length : Int) = max ((codes "hi").length : Int) 5 ∧
    ∃ k, pad_string (codes "hi") 5 = codes "hi" ++ List.replicate k 32 :=
  pad_string_single_width (codes "hi") 5 (by decide)

/-- C2: the input is always a prefix of the padded result, and an input at
least as wide as the target is returned unchanged (no truncation). -/
theorem pad_string_prefix_no_truncation (s : List Nat) (w : Int) :
    s <+: pad_string s w ∧ (w ≤ wcswidth s → pad_string s w = s) := by
  constructor
  · exact ⟨List.replicate (max 0 (w - wcswidth s)).toNat 32, rfl⟩
  · intro h
    show s ++ List.replicate (max 0 (w - wcswidth s)).toNat 32 = s
    have : max 0 (w - wcswidth s) = 0 := max_eq_left (by omega)
    rw [this]
    simp

/-- Witness for C2 at `s = "abc"`, `w = 2` (display width 3 ≥ 2). -/
theorem pad_string_prefix_no_truncation_witness :
    codes "abc" <+: pad_string (codes "abc") 2 ∧
    pad_string (codes "abc") 2 = codes "abc" :=
  ⟨(pad_string_prefix_no_truncation (codes "abc") 2).1,
   (pad_string_prefix_no_truncation (codes "abc") 2).2 (by decide)⟩

/-- C3: a bare token gives start = end; a colon-joined token gives the two
dates in order. -/
theorem parse_dates_examples :
    parse_dates (codes "2024-06-01") = some (⟨2024, 6, 1⟩, ⟨2024, 6, 1⟩) ∧
    parse_dates (codes "2024-06-01:2024-06-05") =
      some (⟨2024, 6, 1⟩, ⟨2024, 6, 5⟩) := by
  decide

/-- Counterexample to C5 as stated: `"sunny cloudy rainy"` contains both
`"cloud"` and `"rain"`, yet rule 1 fires first on `"sun"` and the sun
symbol is returned, not the partly-cloudy one. -/
theorem get_weather_emoji_cloud_rain_cex :
    isSub (codes "cloud") (codes "sunny cloudy rainy") = true ∧
    isSub (codes "rain") (codes "sunny cloudy rainy") = true ∧
    get_weather_emoji (codes "sunny cloudy rainy") = codes "☀️" ∧
    get_weather_emoji (codes "sunny cloudy rainy") ≠ codes "⛅" := by
  decide

/-- C5 (amended): the mapping is first-match-wins; a lowercased condition
containing `"cloud"` and `"rain"` but neither `"clear"` nor `"sun"` gets
the partly-cloudy symbol, and the two concrete examples map to the rain
and partly-cloudy symbols. -/
theorem get_weather_emoji_first_match (c : List Nat)
    (hcloud : isSub (codes "cloud") (c.map lowerChar) = true)
    (hrain : isSub (codes "rain") (c.map lowerChar) = true)
    (hclear : isSub (codes "clear") (c.map lowerChar) = false)
    (hsun : isSub (codes "sun") (c.map lowerChar) = false) :
    get_weather_emoji c = codes "⛅" ∧
    get_weather_emoji (codes "Heavy Rain and Thunderstorms") = codes "🌧️" ∧
    get_weather_emoji (codes "Partly Cloudy") = codes "⛅" := by
  refine ⟨?_, by decide, by decide⟩
  have _ := hrain
  unfold get_weather_emoji symbolFor
  rw [hclear, hsun, hcloud]
  simp

/-- Witness for C5 at the condition `"cloudy rain"`. -/
theorem get_weather_emoji_first_match_witness :
    get_weather_emoji (codes "cloudy rain") = codes "⛅" ∧
    get_weather_emoji (codes "Heavy Rain and Thunderstorms") = codes "🌧️" ∧
    get_weather_emoji (codes "Partly Cloudy") = codes "⛅" :=
  get_weather_emoji_first_match (codes "cloudy rain")
    (by decide) (by decide) (by decide) (by decide)

theorem lowerChar_idem (c : Nat) : lowerChar (lowerChar c) = lowerChar c := by
  unfold lowerChar
  split
  · exact if_neg (by rename_i h; omega)
  · rfl

theorem map_lowerChar_idem (c : List Nat) :
    (c.map lowerChar).map lowerChar = c.map lowerChar := by
  induction c with
  | nil => rfl
  | cons x xs ih => simp [lowerChar_idem, ih]

/-- C9: the mapping is case-insensitive — lowercasing the condition first
does not change the chosen symbol. -/
theorem get_weather_emoji_case_insensitive (c : List Nat) :
    get_weather_emoji c = get_weather_emoji (c.map lowerChar) := by
  unfold get_weather_emoji
  rw [map_lowerChar_idem]

/-- Counterexample to C4 as stated: `"2024-6-1"` does not match the strict
`YYYY-MM-DD` format, yet `parse_dates` returns normally on it. -/
theorem parse_dates_lenient_cex :
    parse_dates (codes "2024-6-1") = some (⟨2024, 6, 1⟩, ⟨2024, 6, 1⟩) ∧
    matchesYMDStrict (codes "2024-6-1") = false := by
  decide

/-! ### Soundness and completeness of the `%Y-%m-%d` parsing -/

theorem natOfDigits_one (x : Nat) : natOfDigits [x] = x - 48 := by
  simp [natOfDigits]

theorem natOfDigits_two (x y : Nat) :
    natOfDigits [x, y] = (x - 48) * 10 + (y - 48) := by
  simp [natOfDigits]

theorem natOfDigits_four (a b c d : Nat) :
    natOfDigits [a, b, c, d] =
      (a - 48) * 1000 + (b - 48) * 100 + (c - 48) * 10 + (d - 48) := by
  simp [natOfDigits]
  ring

theorem parseYear_sound {l : List Nat} {y : Nat} {r : List Nat}
    (h : parseYear l = some (y, r)) :
    ∃ a, l = a ++ r ∧ a.length = 4 ∧ (∀ x ∈ a, isDigit x) ∧
      natOfDigits a = y := by
  match l with
  | [] => simp [parseYear] at h
  | [_] => simp [parseYear] at h
  | [_, _] => simp [parseYear] at h
  | [_, _, _] => simp [parseYear] at h
  | a :: b :: c :: d :: rest =>
    simp only [parseYear] at h
    split at h
    · rename_i hdig
      simp only [Option.some.injEq, Prod.mk.injEq] at h
      obtain ⟨hv, hr⟩ := h
      subst hr
      refine ⟨[a, b, c, d], rfl, rfl, ?_, ?_⟩
      · intro x hx
        simp only [List.mem_cons, List.not_mem_nil, or_false] at hx
        rcases hx with rfl | rfl | rfl | rfl <;> tauto
      · rw [natOfDigits_four]
        omega
    · exact absurd h (by simp)

theorem parseYear_complete {a : List Nat} (r : List Nat)
    (h4 : a.length = 4) (hd : ∀ x ∈ a, isDigit x) :
    parseYear (a ++ r) = some (natOfDigits a, r) := by
  match a, h4 with
  | [x1, x2, x3, x4], _ =>
    have d1 : isDigit x1 := hd x1 (by simp)
    have d2 : isDigit x2 := hd x2 (by simp)
    have d3 : isDigit x3 := hd x3 (by simp)
    have d4 : isDigit x4 := hd x4 (by simp)
    simp only [List.cons_append, List.nil_append, parseYear,
      if_pos (And.intro d1 (And.intro d2 (And.intro d3 d4)))]
    rw [natOfDigits_four]

theorem parseMonth_sound {l : List Nat} {m : Nat} {r : List Nat}
    (h : parseMonth l = some (m, r)) :
    ∃ b, l = b ++ r ∧ 1 ≤ b.length ∧ b.length ≤ 2 ∧
      (∀ x ∈ b, isDigit x) ∧ natOfDigits b = m := by
  match l with
  | [] => simp [parseMonth] at h
  | [c1] =>
    simp only [parseMonth] at h
    split at h
    · rename_i hc
      injection h with h'
      injection h' with hv hr
      subst hr
      exact ⟨[c1], rfl, by simp, by simp, by
        intro x hx
        simp only [List.mem_cons, List.not_mem_nil, or_false] at hx
        subst hx
        simp [isDigit]
        omega, by rw [natOfDigits_one]; omega⟩
    · exact absurd h (by simp)
  | c1 :: c2 :: rest =>
    simp only [parseMonth] at h
    split at h
    · rename_i hc
      injection h with h'
      injection h' with hv hr
      subst hr
      refine ⟨[c1, c2], rfl, by simp, by simp, ?_, ?_⟩
      · intro x hx
        simp only [List.mem_cons, List.not_mem_nil, or_false] at hx
        rcases hx with rfl | rfl <;> (simp [isDigit]; omega)
      · rw [natOfDigits_two]; omega
    · split at h
      · rename_i hc
        injection h with h'
        injection h' with hv hr
        subst hr
        refine ⟨[c1, c2], rfl, by simp, by simp, ?_, ?_⟩
        · intro x hx
          simp only [List.mem_cons, List.not_mem_nil, or_false] at hx
          rcases hx with rfl | rfl <;> (simp [isDigit]; omega)
        · rw [natOfDigits_two]; omega
      · split at h
        · rename_i hc
          injection h with h'
          injection h' with hv hr
          subst hr
          refine ⟨[c1], rfl, by simp, by simp, ?_, ?_⟩
          · intro x hx
            simp only [List.mem_cons, List.not_mem_nil, or_false] at hx
            subst hx
            simp [isDigit]
            omega
          · rw [natOfDigits_one]; omega
        · exact absurd h (by simp)

theorem parseMonth_complete {b : List Nat} (r : List Nat)
    (hd : ∀ x ∈ b, isDigit x) (h1 : 1 ≤ b.length) (h2 : b.length ≤ 2)
    (hlo : 1 ≤ natOfDigits b) (hhi : natOfDigits b ≤ 12) :
    parseMonth (b ++ 45 :: r) = some (natOfDigits b, 45 :: r) := by
  match b, h1, h2 with
  | [x1], _, _ =>
    have d1 : isDigit x1 := hd x1 (by simp)
    simp only [isDigit, decide_eq_true_eq] at d1
    rw [natOfDigits_one] at hlo hhi ⊢
    simp only [List.cons_append, List.nil_append, parseMonth]
    rw [if_neg (by omega), if_neg (by omega), if_pos (by omega)]
  | [x1, x2], _, _ =>
    have d1 : isDigit x1 := hd x1 (by simp)
    have d2 : isDigit x2 := hd x2 (by simp)
    simp only [isDigit, decide_eq_true_eq] at d1 d2
    rw [natOfDigits_two] at hlo hhi ⊢
    simp only [List.cons_append, List.nil_append, parseMonth]
    by_cases hx1 : x1 = 49
    · rw [if_pos (by omega)]
      congr 2
      omega
    · have hx148 : x1 = 48 := by omega
      rw [if_neg (by omega), if_pos (by omega)]
      congr 2
      omega

theorem parseDay_sound {l : List Nat} {d : Nat} {r : List Nat}
    (h : parseDay l = some (d, r)) :
    ∃ c, l = c ++ r ∧ 1 ≤ c.length ∧ c.length ≤ 2 ∧
      (∀ x ∈ c, isDigit x) ∧ natOfDigits c = d := by
  match l with
  | [] => simp [parseDay] at h
  | [c1] =>
    simp only [parseDay] at h
    split at h
    · rename_i hc
      injection h with h'
      injection h' with hv hr
      subst hr
      exact ⟨[c1], rfl, by simp, by simp, by
        intro x hx
        simp only [List.mem_cons, List.not_mem_nil, or_false] at hx
        subst hx
        simp [isDigit]
        omega, by rw [natOfDigits_one]; omega⟩
    · exact absurd h (by simp)
  | c1 :: c2 :: rest =>
    simp only [parseDay] at h
    split at h
    · rename_i hc
      injection h with h'
      injection h' with hv hr
      subst hr
      refine ⟨[c1, c2], rfl, by simp, by simp, ?_, ?_⟩
      · intro x hx
        simp only [List.mem_cons, List.not_mem_nil, or_false] at hx
        rcases hx with rfl | rfl <;> (simp [isDigit]; omega)
      · rw [natOfDigits_two]; omega
    · split at h
      · rename_i hc
        obtain ⟨hc1, hc2⟩ := hc
        simp only [isDigit, decide_eq_true_eq] at hc2
        injection h with h'
        injection h' with hv hr
        subst hr
        refine ⟨[c1, c2], rfl, by simp, by simp, ?_, ?_⟩
        · intro x hx
          simp only [List.mem_cons, List.not_mem_nil, or_false] at hx
          rcases hx with rfl | rfl <;> (simp [isDigit]; omega)
        · rw [natOfDigits_two]; omega
      · split at h
        · rename_i hc
          injection h with h'
          injection h' with hv hr
          subst hr
          refine ⟨[c1, c2], rfl, by simp, by simp, ?_, ?_⟩
          · intro x hx
            simp only [List.mem_cons, List.not_mem_nil, or_false] at hx
            rcases hx with rfl | rfl <;> (simp [isDigit]; omega)
          · rw [natOfDigits_two]; omega
        · split at h
          · rename_i hc
            injection h with h'
            injection h' with hv hr
            subst hr
            refine ⟨[c1], rfl, by simp, by simp, ?_, ?_⟩
            · intro x hx
              simp only [List.mem_cons, List.not_mem_nil, or_false] at hx
              subst hx
              simp [isDigit]
              omega
            · rw [natOfDigits_one]; omega
          · exact absurd h (by simp)

theorem parseDay_complete {c : List Nat}
    (hd : ∀ x ∈ c, isDigit x) (h1 : 1 ≤ c.length) (h2 : c.length ≤ 2)
    (hlo : 1 ≤ natOfDigits c) (hhi : natOfDigits c ≤ 31) :
    parseDay c = some (natOfDigits c, []) := by
  match c, h1, h2 with
  | [x1], _, _ =>
    have d1 : isDigit x1 := hd x1 (by simp)
    simp only [isDigit, decide_eq_true_eq] at d1
    rw [natOfDigits_one] at hlo hhi ⊢
    simp only [parseDay]
    rw [if_pos (by omega)]
  | [x1, x2], _, _ =>
    have d1 : isDigit x1 := hd x1 (by simp)
    have d2 : isDigit x2 := hd x2 (by simp)
    simp only [isDigit, decide_eq_true_eq] at d1 d2
    rw [natOfDigits_two] at hlo hhi ⊢
    simp only [parseDay]
    by_cases hx1 : x1 = 51
    · rw [if_pos (by constructor <;> omega)]
      congr 2
      omega
    · by_cases hx2 : x1 = 49 ∨ x1 = 50
      · rw [if_neg (by omega),
          if_pos (And.intro hx2 (by simp [isDigit]; omega))]
      · have hx148 : x1 = 48 := by omega
        rw [if_neg (by omega), if_neg (by omega), if_pos (by omega)]
        congr 2
        omega

theorem expectDash_sound {l r : List Nat} (h : expectDash l = some r) :
    l = 45 :: r := by
  match l with
  | [] => simp [expectDash] at h
  | c :: rest =>
    simp only [expectDash] at h
    split at h
    · rename_i hc
      subst hc
      injection h with h'
      rw [h']
    · exact absurd h (by simp)

theorem expectDash_dash (r : List Nat) : expectDash (45 :: r) = some r := by
  simp [expectDash]

theorem daysInMonth_le_31 (y m : Nat) : daysInMonth y m ≤ 31 := by
  unfold daysInMonth
  split_ifs <;> omega

theorem strptime_Ymd_sound {t : List Nat} {dt : Date}
    (h : strptime_Ymd t = some dt) :
    lenientDatePart t dt.year dt.month dt.day := by
  unfold strptime_Ymd at h
  cases hY : parseYear t with
  | none => rw [hY] at h; simp at h
  | some p =>
    obtain ⟨y, r1⟩ := p
    rw [hY] at h
    simp only [Option.bind_eq_bind, Option.some_bind] at h
    cases hE1 : expectDash r1 with
    | none => rw [hE1] at h; simp at h
    | some r2 =>
      rw [hE1] at h
      simp only [Option.some_bind] at h
      cases hM : parseMonth r2 with
      | none => rw [hM] at h; simp at h
      | some q =>
        obtain ⟨m, r3⟩ := q
        rw [hM] at h
        simp only [Option.some_bind] at h
        cases hE2 : expectDash r3 with
        | none => rw [hE2] at h; simp at h
        | some r4 =>
          rw [hE2] at h
          simp only [Option.some_bind] at h
          cases hD : parseDay r4 with
          | none => rw [hD] at h; simp at h
          | some w =>
            obtain ⟨d, r5⟩ := w
            rw [hD] at h
            simp only [Option.some_bind] at h
            by_cases hr5 : r5 = []
            · rw [if_pos hr5] at h
              subst hr5
              unfold date_ctor at h
              by_cases hv : validDate y m d
              · rw [if_pos hv] at h
                injection h with h'
                subst h'
                obtain ⟨a, hta, ha4, had, hav⟩ := parseYear_sound hY
                have hr1 : r1 = 45 :: r2 := expectDash_sound hE1
                obtain ⟨b, hb, hb1, hb2, hbd, hbv⟩ := parseMonth_sound hM
                have hr3 : r3 = 45 :: r4 := expectDash_sound hE2
                obtain ⟨c, hc, hc1, hc2, hcd, hcv⟩ := parseDay_sound hD
                refine ⟨a, b, c, ?_, ha4, had, hb1, hb2, hbd, hc1, hc2,
                  hcd, hav, hbv, hcv, hv⟩
                rw [hta, hr1, hb, hr3, hc]
                simp
              · rw [if_neg hv] at h
                simp at h
            · rw [if_neg hr5] at h
              simp at h

theorem strptime_Ymd_complete {t : List Nat} {y m d : Nat}
    (h : lenientDatePart t y m d) : strptime_Ymd t = some ⟨y, m, d⟩ := by
  obtain ⟨a, b, c, ht, ha4, had, hb1, hb2, hbd, hc1, hc2, hcd, hay, hbm,
    hcv, hv⟩ := h
  subst ht hay hbm hcv
  have hv' := hv
  simp only [validDate, decide_eq_true_eq] at hv'
  have hd31 := daysInMonth_le_31 (natOfDigits a) (natOfDigits b)
  have hass : a ++ [45] ++ b ++ [45] ++ c = a ++ (45 :: (b ++ 45 :: c)) := by
    simp
  rw [hass]
  unfold strptime_Ymd
  rw [parseYear_complete (45 :: (b ++ 45 :: c)) ha4 had]
  simp only [Option.bind_eq_bind, Option.some_bind]
  rw [expectDash_dash]
  simp only [Option.some_bind]
  rw [parseMonth_complete c hbd hb1 hb2 (by omega) (by omega)]
  simp only [Option.some_bind]
  rw [expectDash_dash]
  simp only [Option.some_bind]
  rw [parseDay_complete hcd hc1 hc2 (by omega) (by omega)]
  simp only [Option.some_bind, if_pos rfl]
  unfold date_ctor
  rw [if_pos hv]
  simp

/-! ### `splitColon` and the `parse_dates` characterization -/

theorem splitColon_ne_nil (l : List Nat) : splitColon l ≠ [] := by
  induction l with
  | nil => simp [splitColon]
  | cons c rest ih =>
    unfold splitColon
    split
    · simp
    · split
      · simp
      · simp

theorem splitColon_no_colon {l : List Nat} (h : 58 ∉ l) : splitColon l = [l] := by
  induction l with
  | nil => rfl
  | cons c rest ih =>
    have hc : c ≠ 58 := fun hc => h (hc ▸ List.mem_cons_self c rest)
    have hrest : 58 ∉ rest := fun hm => h (List.mem_cons_of_mem c hm)
    unfold splitColon
    rw [if_neg hc, ih hrest]

theorem splitColon_append {a : List Nat} (b : List Nat) (h : 58 ∉ a) :
    splitColon (a ++ 58 :: b) = a :: splitColon b := by
  induction a with
  | nil => simp [splitColon]
  | cons c a' ih =>
    have hc : c ≠ 58 := fun hc => h (hc ▸ List.mem_cons_self c a')
    have ha' : 58 ∉ a' := fun hm => h (List.mem_cons_of_mem c hm)
    show splitColon (c :: (a' ++ 58 :: b)) = (c :: a') :: splitColon b
    simp only [splitColon]
    rw [if_neg hc, ih ha']

theorem splitColon_eq_single {l x : List Nat} (h : splitColon l = [x]) :
    l = x ∧ 58 ∉ x := by
  induction l generalizing x with
  | nil =>
    simp only [splitColon] at h
    injection h with h1 h2
    subst h1
    exact ⟨rfl, by simp⟩
  | cons c rest ih =>
    unfold splitColon at h
    split at h
    · rename_i hc
      injection h with h1 h2
      exact absurd h2 (splitColon_ne_nil rest)
    · rename_i hc
      split at h
      · rename_i hsp
        exact absurd hsp (splitColon_ne_nil rest)
      · rename_i h' t hsp
        injection h with h1 h2
        subst h2
        obtain ⟨hr, hmem⟩ := ih hsp
        subst hr
        subst h1
        refine ⟨rfl, ?_⟩
        intro hm
        rcases List.mem_cons.mp hm with h58 | h58
        · exact hc h58.symm
        · exact hmem h58

theorem splitColon_eq_pair {l a b : List Nat} (h : splitColon l = [a, b]) :
    l = a ++ 58 :: b ∧ 58 ∉ a ∧ 58 ∉ b := by
  induction l generalizing a with
  | nil => simp [splitColon] at h
  | cons c rest ih =>
    unfold splitColon at h
    split at h
    · rename_i hc
      subst hc
      injection h with h1 h2
      subst h1
      obtain ⟨hr, hmem⟩ := splitColon_eq_single h2
      subst hr
      exact ⟨rfl, by simp, hmem⟩
    · rename_i hc
      split at h
      · rename_i hsp
        exact absurd hsp (splitColon_ne_nil rest)
      · rename_i h' t hsp
        injection h with h1 h2
        subst h1
        have : splitColon rest = [h', b] := by rw [hsp, h2]
        obtain ⟨hr, hm1, hm2⟩ := ih this
        subst hr
        refine ⟨rfl, ?_, hm2⟩
        intro hm
        rcases List.mem_cons.mp hm with h58 | h58
        · exact hc h58.symm
        · exact hm1 h58

theorem dateLE_refl (d : Date) : dateLE d d = true := by
  simp [dateLE]

theorem checkOrder_sound {p : Option (Date × Date)} {d1 d2 : Date}
    (h : checkOrder p = some (d1, d2)) :
    p = some (d1, d2) ∧ dateLE d1 d2 = true := by
  match p with
  | none => simp [checkOrder] at h
  | some (e1, e2) =>
    simp only [checkOrder] at h
    split at h
    · rename_i hle
      injection h with h'
      injection h' with h1 h2
      subst h1
      subst h2
      exact ⟨rfl, hle⟩
    · exact absurd h (by simp)

theorem checkOrder_complete {d1 d2 : Date} (h : dateLE d1 d2 = true) :
    checkOrder (some (d1, d2)) = some (d1, d2) := by
  simp [checkOrder, h]

/-- C4 (amended): `parse_dates` returns normally exactly when the token has
no colon and is in Python's lenient `%Y-%m-%d` format (four-digit year,
one-or-two-digit month and day, valid calendar date — zero padding is NOT
required), or has exactly one colon, both parts in that lenient format, and
the first date not after the second; any other input — bad part, extra
colons, or start after end — prints an error and exits non-zero.  Whenever
it returns, start ≤ end. -/
theorem parse_dates_spec (s : List Nat) :
    ((∃ p, parse_dates s = some p) ↔ parseOKSpec s) ∧
    (∀ d1 d2, parse_dates s = some (d1, d2) → dateLE d1 d2 = true) := by
  constructor
  · constructor
    · rintro ⟨⟨d1, d2⟩, h⟩
      unfold parse_dates at h
      obtain ⟨h, hle⟩ := checkOrder_sound h
      by_cases hmem : 58 ∈ s
      · rw [if_pos hmem] at h
        rcases hsp : splitColon s with _ | ⟨a, _ | ⟨b, _ | ⟨c, t⟩⟩⟩ <;>
          rw [hsp] at h
        · simp at h
        · simp at h
        · simp only [] at h
          cases hA : strptime_Ymd a with
          | none => rw [hA] at h; simp at h
          | some dA =>
            cases hB : strptime_Ymd b with
            | none => rw [hA, hB] at h; simp at h
            | some dB =>
              rw [hA, hB] at h
              simp only [Option.some.injEq, Prod.mk.injEq] at h
              obtain ⟨h1, h2⟩ := h
              rw [← h1, ← h2] at hle
              obtain ⟨hs, hna, hnb⟩ := splitColon_eq_pair hsp
              exact Or.inr ⟨a, b, hs, hna, hnb, dA.year, dA.month, dA.day,
                dB.year, dB.month, dB.day, strptime_Ymd_sound hA,
                strptime_Ymd_sound hB, hle⟩
        · simp at h
      · rw [if_neg hmem] at h
        cases hst : strptime_Ymd s with
        | none => rw [hst] at h; simp at h
        | some d =>
          rw [hst] at h
          simp only [Option.map_some', Option.some.injEq, Prod.mk.injEq] at h
          exact Or.inl ⟨hmem, d.year, d.month, d.day,
            strptime_Ymd_sound hst⟩
    · intro hok
      rcases hok with ⟨hmem, y, m, d, hlen⟩ |
        ⟨a, b, hs, hna, hnb, y1, m1, dd1, y2, m2, dd2, h1, h2, hle⟩
      · refine ⟨(⟨y, m, d⟩, ⟨y, m, d⟩), ?_⟩
        unfold parse_dates
        rw [if_neg hmem, strptime_Ymd_complete hlen]
        simp only [Option.map_some']
        exact checkOrder_complete (dateLE_refl _)
      · subst hs
        refine ⟨(⟨y1, m1, dd1⟩, ⟨y2, m2, dd2⟩), ?_⟩
        unfold parse_dates
        rw [if_pos (by simp : (58 : Nat) ∈ a ++ 58 :: b),
          splitColon_append b hna, splitColon_no_colon hnb]
        simp only []
        rw [strptime_Ymd_complete h1, strptime_Ymd_complete h2]
        exact checkOrder_complete hle
  · intro d1 d2 h
    unfold parse_dates at h
    exact (checkOrder_sound h).2

/-- Witness for C4: both directions of the characterization exercised at
`"2024-06-30:2024-7-2"` (one colon, lenient parts, ordered), plus the
invariant at its result. -/
theorem parse_dates_spec_witness :
    (∃ p, parse_dates (codes "2024-06-30:2024-7-2") = some p) ∧
    dateLE ⟨2024, 6, 30⟩ ⟨2024, 7, 2⟩ = true :=
  ⟨(parse_dates_spec (codes "2024-06-30:2024-7-2")).1.mpr
    (Or.inr ⟨codes "2024-06-30", codes "2024-7-2", by decide, by decide,
      by decide, 2024, 6, 30, 2024, 7, 2,
      ⟨codes "2024", codes "06", codes "30", by decide, by decide, by decide,
        by decide, by decide, by decide, by decide, by decide, by decide,
        by decide, by decide, by decide, by decide⟩,
      ⟨codes "2024", codes "7", codes "2", by decide, by decide, by decide,
        by decide, by decide, by decide, by decide, by decide, by decide,
        by decide, by decide, by decide, by decide⟩,
      by decide⟩),
   (parse_dates_spec (codes "2024-06-30:2024-7-2")).2 ⟨2024, 6, 30⟩
     ⟨2024, 7, 2⟩ (by decide)⟩

/-! ### Claims about the CLI entry point -/

/-- C10: an empty `VISUAL_CROSSING_API_KEY` behaves exactly like an unset
one — once the date argument parses, the run prints the guidance line and
exits 1 with no network request (`requestedUrl = none`). -/
theorem main_empty_key_like_absent (nation city dateArg : List Nat)
    (http : List Nat → HttpResp) :
    main nation city dateArg (some []) http =
      main nation city dateArg none http ∧
    (∀ p, parse_dates dateArg = some p →
      main nation city dateArg (some []) http =
        some ⟨1, [.keyGuidance], none⟩) := by
  constructor
  · unfold main
    cases parse_dates dateArg with
    | none => rfl
    | some p =>
      obtain ⟨d1, d2⟩ := p
      rfl
  · intro p hp
    obtain ⟨d1, d2⟩ := p
    unfold main
    rw [hp]
    rfl

/-- Witness for C10 at a parsable date argument. -/
theorem main_empty_key_like_absent_witness :
    main (codes "US") (codes "Boston") (codes "2024-06-01") (some [])
        (fun _ => ⟨200, [], ⟨none⟩⟩) =
      some ⟨1, [.keyGuidance], none⟩ :=
  (main_empty_key_like_absent (codes "US") (codes "Boston")
    (codes "2024-06-01") (fun _ => ⟨200, [], ⟨none⟩⟩)).2
    (⟨2024, 6, 1⟩, ⟨2024, 6, 1⟩) (by decide)

/-- C7: every non-200 provider response makes the run print the diagnostic
carrying the status code and body and exit 1; no table is printed. -/
theorem main_non200_fatal (nation city dateArg key : List Nat)
    (http : List Nat → HttpResp) (d1 d2 : Date)
    (hp : parse_dates dateArg = some (d1, d2)) (hk : key ≠ [])
    (hs : ∀ u, (http u).status ≠ 200) :
    (∃ u, main nation city dateArg (some key) http =
      some ⟨1, [.fetchError (http u).status (http u).text], some u⟩) ∧
    (∀ r, main nation city dateArg (some key) http = some r →
      r.exitCode ≠ 0 ∧ r.out.all (fun i => !(isTable i)) = true) := by
  have hmain : main nation city dateArg (some key) http =
      some ⟨1, [.fetchError
        (http (fetch_weather_url nation city (dateISO d1) (dateISO d2) key)).status
        (http (fetch_weather_url nation city (dateISO d1) (dateISO d2) key)).text],
        some (fetch_weather_url nation city (dateISO d1) (dateISO d2) key)⟩ := by
    simp only [main, hp, Option.getD_some]
    rw [if_neg hk]
    unfold fetch_weather
    rw [if_pos (hs _)]
  constructor
  · exact ⟨fetch_weather_url nation city (dateISO d1) (dateISO d2) key, hmain⟩
  · intro r hr
    rw [hmain] at hr
    injection hr with hr'
    subst hr'
    exact ⟨by simp, by simp [isTable]⟩

/-- Witness for C7 under a provider that always answers 500. -/
theorem main_non200_fatal_witness :
    (∃ u, main (codes "US") (codes "Boston") (codes "2024-06-01")
        (some (codes "KEY")) (fun _ => ⟨500, codes "Server Error", ⟨none⟩⟩) =
      some ⟨1, [.fetchError
        ((fun _ => (⟨500, codes "Server Error", ⟨none⟩⟩ : HttpResp)) u).status
        ((fun _ => (⟨500, codes "Server Error", ⟨none⟩⟩ : HttpResp)) u).text],
        some u⟩) ∧
    (∀ r, main (codes "US") (codes "Boston") (codes "2024-06-01")
        (some (codes "KEY")) (fun _ => ⟨500, codes "Server Error", ⟨none⟩⟩) =
          some r →
      r.exitCode ≠ 0 ∧ r.out.all (fun i => !(isTable i)) = true) :=
  main_non200_fatal (codes "US") (codes "Boston") (codes "2024-06-01")
    (codes "KEY") (fun _ => ⟨500, codes "Server Error", ⟨none⟩⟩)
    ⟨2024, 6, 1⟩ ⟨2024, 6, 1⟩ (by decide) (by decide)
    (fun _ => (by decide : (500 : Nat) ≠ 200))

/-- C6: a 200 response whose `days` field is absent or the empty list makes
the run print the banner and the distinct no-data notice, render no grid,
and exit 0. -/
theorem main_no_days_success (nation city dateArg key : List Nat)
    (http : List Nat → HttpResp) (d1 d2 : Date)
    (hp : parse_dates dateArg = some (d1, d2)) (hk : key ≠ [])
    (hs : ∀ u, (http u).status = 200)
    (hd : ∀ u, (http u).json.days = none ∨ (http u).json.days = some []) :
    main nation city dateArg (some key) http =
      some ⟨0, [.banner city nation d1 d2, .noData],
        some (fetch_weather_url nation city (dateISO d1) (dateISO d2) key)⟩ ∧
    (∀ r, main nation city dateArg (some key) http = some r →
      r.exitCode = 0 ∧ r.out.all (fun i => !(isTable i)) = true) := by
  have hmain : main nation city dateArg (some key) http =
      some ⟨0, [.banner city nation d1 d2, .noData],
        some (fetch_weather_url nation city (dateISO d1) (dateISO d2) key)⟩ := by
    simp only [main, hp, Option.getD_some]
    rw [if_neg hk]
    unfold fetch_weather
    rw [if_neg (fun hc => hc (hs _))]
    simp only []
    rcases hd (fetch_weather_url nation city (dateISO d1) (dateISO d2) key)
      with h | h <;> rw [h] <;> rfl
  refine ⟨hmain, ?_⟩
  intro r hr
  rw [hmain] at hr
  injection hr with hr'
  subst hr'
  exact ⟨rfl, by simp [isTable]⟩

/-- Witness for C6 under a provider answering 200 with no `days` field. -/
theorem main_no_days_success_witness :
    main (codes "US") (codes "Boston") (codes "2024-06-01")
        (some (codes "KEY")) (fun _ => ⟨200, [], ⟨none⟩⟩) =
      some ⟨0, [.banner (codes "Boston") (codes "US") ⟨2024, 6, 1⟩ ⟨2024, 6, 1⟩,
        .noData],
        some (fetch_weather_url (codes "US") (codes "Boston")
          (dateISO ⟨2024, 6, 1⟩) (dateISO ⟨2024, 6, 1⟩) (codes "KEY"))⟩ ∧
    (∀ r, main (codes "US") (codes "Boston") (codes "2024-06-01")
        (some (codes "KEY")) (fun _ => ⟨200, [], ⟨none⟩⟩) = some r →
      r.exitCode = 0 ∧ r.out.all (fun i => !(isTable i)) = true) :=
  main_no_days_success (codes "US") (codes "Boston") (codes "2024-06-01")
    (codes "KEY") (fun _ => ⟨200, [], ⟨none⟩⟩) ⟨2024, 6, 1⟩ ⟨2024, 6, 1⟩
    (by decide) (by decide) (fun _ => (by decide : (200 : Nat) = 200))
    (fun _ => Or.inl (by decide : (none : Option (List Day)) = none))

/-- C8 (amended): whenever the run reaches the network, the requested URL
is the timeline endpoint with the location `"{city},{nation}"` inserted
verbatim — not percent-encoded — followed by the two zero-padded ISO
dates, with query parameters `unitGroup=metric`, the credential, and
`include=days`. -/
theorem main_request_url (nation city dateArg key : List Nat)
    (http : List Nat → HttpResp) (d1 d2 : Date) (r : RunResult)
    (hp : parse_dates dateArg = some (d1, d2)) (hk : key ≠ [])
    (hr : main nation city dateArg (some key) http = some r) :
    r.requestedUrl =
      some (codes "https://weather.visualcrossing.com/VisualCrossingWebServices/rest/services/timeline/"
        ++ city ++ [44] ++ nation ++ [47] ++ dateISO d1 ++ [47] ++ dateISO d2
        ++ codes "?unitGroup=metric&key=" ++ key ++ codes "&include=days") := by
  simp only [main, hp, Option.getD_some] at hr
  rw [if_neg hk] at hr
  have hurl : ∀ q : RunResult,
      q.requestedUrl = some (fetch_weather_url nation city (dateISO d1)
        (dateISO d2) key) →
      q.requestedUrl = some (codes "https://weather.visualcrossing.com/VisualCrossingWebServices/rest/services/timeline/"
        ++ city ++ [44] ++ nation ++ [47] ++ dateISO d1 ++ [47] ++ dateISO d2
        ++ codes "?unitGroup=metric&key=" ++ key ++ codes "&include=days") := by
    intro q hq
    rw [hq]
    simp [fetch_weather_url, List.append_assoc]
  rcases hfe : fetch_weather (http (fetch_weather_url nation city (dateISO d1)
      (dateISO d2) key)) with p | data
  · obtain ⟨st, txt⟩ := p
    rw [hfe] at hr
    simp only [] at hr
    injection hr with hr'
    subst hr'
    exact hurl _ rfl
  · rw [hfe] at hr
    simp only [] at hr
    by_cases hdays : data.days.getD [] = []
    · rw [if_pos hdays] at hr
      injection hr with hr'
      subst hr'
      exact hurl _ rfl
    · rw [if_neg hdays] at hr
      rcases hrows : (data.days.getD []).mapM renderDay with _ | rows <;>
        rw [hrows] at hr
      · simp at hr
      · simp only [] at hr
        injection hr with hr'
        subst hr'
        exact hurl _ rfl

/-- Witness for C8 with city Rome, nation IT. -/
theorem main_request_url_witness :
    RunResult.requestedUrl
      ⟨0, [.banner (codes "Rome") (codes "IT") ⟨2024, 6, 1⟩ ⟨2024, 6, 1⟩,
        .noData],
        some (fetch_weather_url (codes "IT") (codes "Rome")
          (dateISO ⟨2024, 6, 1⟩) (dateISO ⟨2024, 6, 1⟩) (codes "KEY"))⟩ =
      some (codes "https://weather.visualcrossing.com/VisualCrossingWebServices/rest/services/timeline/"
        ++ codes "Rome" ++ [44] ++ codes "IT" ++ [47] ++ dateISO ⟨2024, 6, 1⟩
        ++ [47] ++ dateISO ⟨2024, 6, 1⟩ ++ codes "?unitGroup=metric&key="
        ++ codes "KEY" ++ codes "&include=days") :=
  main_request_url (codes "IT") (codes "Rome") (codes "2024-06-01")
    (codes "KEY") (fun _ => ⟨200, [], ⟨none⟩⟩) ⟨2024, 6, 1⟩ ⟨2024, 6, 1⟩
    _ (by decide) (by decide) (by decide)

/-- Counterexample to C8 as stated: for city `"New York"` the constructed
request URL contains the location verbatim, raw space included; the
percent-encoded form of the location does not occur in it, so the location
is not URL-encoded in the request path. -/
theorem main_request_url_cex :
    isSub (codes "New York,US")
      (fetch_weather_url (codes "US") (codes "New York") (codes "2024-06-01")
        (codes "2024-06-05") (codes "KEY")) = true ∧
    isSub (specUrlEncode (codes "New York,US"))
      (fetch_weather_url (codes "US") (codes "New York") (codes "2024-06-01")
        (codes "2024-06-05") (codes "KEY")) = false ∧
    (main (codes "US") (codes "New York") (codes "2024-06-01:2024-06-05")
        (some (codes "KEY")) (fun _ => ⟨200, [], ⟨none⟩⟩)).map
      RunResult.requestedUrl =
      some (some (fetch_weather_url (codes "US") (codes "New York")
        (codes "2024-06-01") (codes "2024-06-05") (codes "KEY"))) := by
  decide

end PyWeather
